import Mathlib

/-!
# Verification of the AKF3 / UKG recursive-reasoning core

This file gives a shallow embedding of the AKF3 Universal Knowledge Graph
repository's reasoning core and checks the repository's specification
against it.

The embedding has three layers:

* **Source-level definitions** taken directly from readable source files:
  the axis formula `pillar_function` (given verbatim in `info/ukg.md` and
  present in `app/core/axes.py`), the `PILLAR_LEVELS` / `DOMAIN_INFO`
  tables of `pillar-levels-explorer.tsx`, and the `ApiClient.request`
  wrapper of `frontend/src/lib/api.ts`.

* **Spec-modelled definitions** for the persona-agent recursion
  (`process_query`), the ensemble dispatch and the bounded concurrent
  scheduler: the Python modules `app/core/persona_agent.py`,
  `app/core/orchestrator.py` and `app/core/tasks/background_manager.py`
  are not present in the repository snapshot (only their test suite
  survives, as corrupted byte-code), so those operations are modelled
  from the specification's §3–§5, using the literal trace strings that
  the surviving test byte-code and the dashboard mock data exhibit.

Numeric values (axis scores, confidences) are embedded as rationals.
-/

namespace AKF

/-! ## Axis formulas (from source: `info/ukg.md` §2.2 and `app/core/axes.py`) -/

/-- Axis 1, Pillar Function: `Σ wᵢ · pᵢ(x)`.  Source (`info/ukg.md`):
`def pillar_function(weights, values): return sum(w * v for w, v in zip(weights, values))`. -/
def pillar_function (weights values : List ℚ) : ℚ :=
  ((weights.zip values).map (fun wv => wv.1 * wv.2)).sum

/-- Axis 2, Level Hierarchy: `∫ lᵢ dt`, embedded as the discrete sum
`Σ lᵢ · dtᵢ` over level indices and time deltas (from `app/core/axes.py`:
"Integral over level index li with time deltas"). -/
def level_hierarchy (level_indices time_deltas : List ℚ) : ℚ :=
  ((level_indices.zip time_deltas).map (fun ld => ld.1 * ld.2)).sum

/-! ## Data model for the persona-agent core

Modelled from the spec: the Python reasoning core (`persona_agent.py`,
`orchestrator.py`, `background_manager.py`) is missing from the snapshot;
the shapes below follow spec §3 and the field names used by the
surviving test byte-code and `frontend/src/lib/api.ts`. -/

/-- An item's axis assignment: named axis values. -/
abbrev Axes := List (String × ℚ)

/-- Modelled from the spec: a knowledge item with a classification
(pillar id) and its known axis values (spec §4.1 inputs). -/
structure Item where
  pillar : String
  axes : Axes
deriving DecidableEq

/-- Agent operating state (spec §3: `Idle, Processing, Learning, Error`;
`api.ts` `PersonaAgent.state`). -/
inductive AgentState where
  | idle
  | processing
  | learning
  | error
deriving DecidableEq

/-- Modelled from the spec: a persona agent's static configuration
(spec §3: `domainCoverage`, `algorithmsAvailable` in preference order). -/
structure Agent where
  id : String
  domainCoverage : List String
  algorithmsAvailable : List String
deriving DecidableEq

/-- Modelled from the spec: the Algorithm Provider collaborator
(spec §6): required axes per algorithm and a fallible execution map
(`none` = the execution raised a failure). -/
structure Provider where
  requiredAxes : String → List String
  exec : String → Axes → Option ℚ

/-- Modelled from the spec: `ProcessResult` (spec §3) with recursive
escalation records; each subcall carries the recursion depth it ran at
together with its own `ProcessResult` (spec: "a `RecursionContext`
snapshot plus its `ProcessResult`"). -/
inductive ProcessResult where
  | mk (value : Option ℚ) (confidence : ℚ) (actions : List String)
       (warnings : List String) (error : Option String)
       (subcalls : List (Nat × ProcessResult))

/-- Final score of a result. -/
def ProcessResult.value : ProcessResult → Option ℚ
  | .mk v _ _ _ _ _ => v

/-- Certainty of a result. -/
def ProcessResult.confidence : ProcessResult → ℚ
  | .mk _ c _ _ _ _ => c

/-- Flat ordered trace strings of this invocation. -/
def ProcessResult.actions : ProcessResult → List String
  | .mk _ _ a _ _ _ => a

/-- Non-fatal issues of this invocation. -/
def ProcessResult.warnings : ProcessResult → List String
  | .mk _ _ _ w _ _ => w

/-- Present only when the call could not produce a usable result. -/
def ProcessResult.error : ProcessResult → Option String
  | .mk _ _ _ _ e _ => e

/-- Recursive escalation records. -/
def ProcessResult.subcalls : ProcessResult → List (Nat × ProcessResult)
  | .mk _ _ _ _ _ s => s

@[simp] lemma ProcessResult.value_mk (v : Option ℚ) (c : ℚ) (a w : List String)
    (e : Option String) (s : List (Nat × ProcessResult)) :
    (ProcessResult.mk v c a w e s).value = v := rfl

@[simp] lemma ProcessResult.confidence_mk (v : Option ℚ) (c : ℚ) (a w : List String)
    (e : Option String) (s : List (Nat × ProcessResult)) :
    (ProcessResult.mk v c a w e s).confidence = c := rfl

@[simp] lemma ProcessResult.actions_mk (v : Option ℚ) (c : ℚ) (a w : List String)
    (e : Option String) (s : List (Nat × ProcessResult)) :
    (ProcessResult.mk v c a w e s).actions = a := rfl

@[simp] lemma ProcessResult.warnings_mk (v : Option ℚ) (c : ℚ) (a w : List String)
    (e : Option String) (s : List (Nat × ProcessResult)) :
    (ProcessResult.mk v c a w e s).warnings = w := rfl

@[simp] lemma ProcessResult.error_mk (v : Option ℚ) (c : ℚ) (a w : List String)
    (e : Option String) (s : List (Nat × ProcessResult)) :
    (ProcessResult.mk v c a w e s).error = e := rfl

@[simp] lemma ProcessResult.subcalls_mk (v : Option ℚ) (c : ℚ) (a w : List String)
    (e : Option String) (s : List (Nat × ProcessResult)) :
    (ProcessResult.mk v c a w e s).subcalls = s := rfl

/-! ## The persona-agent recursion, modelled from spec §4.1 -/

/-- Does the axis assignment contain a value for the named axis? -/
def hasAxis (axes : Axes) (name : String) : Bool :=
  axes.any (fun av => av.1 = name)

/-- Axis-coverage completeness: fraction of the algorithm's required
axes that the item supplies directly (spec §4.1 step 5: confidence is a
function of axis coverage completeness; an empty requirement counts as
full coverage). -/
def coverage (P : Provider) (algoId : String) (item : Item) : ℚ :=
  if (P.requiredAxes algoId).length = 0 then 1
  else (((P.requiredAxes algoId).filter (fun ax => hasAxis item.axes ax)).length : ℚ) /
    ((P.requiredAxes algoId).length : ℚ)

/-- Modelled from the spec (§4.1 step 3): axis completeness check.  For
each missing required axis record a gap-detected and an
imputation-attempted action (strings as in the repository's test suite
and dashboard mock traces); a one-shot imputation either supplies a
conservative value or, when it cannot, adds the warning
`"Missing required axis: <name>"` and processing proceeds.  Returns the
(possibly imputed) axis assignment, the recorded actions, and the
warnings. -/
def axisCheck (imp : String → Option ℚ) :
    List String → Axes → Axes × List String × List String
  | [], axes => (axes, [], [])
  | ax :: rest, axes =>
    if hasAxis axes ax then axisCheck imp rest axes
    else
      match imp ax with
      | some v =>
        let r := axisCheck imp rest (axes ++ [(ax, v)])
        (r.1, "Gap detected - missing required axis" ::
              "Attempted axis imputation" :: r.2.1, r.2.2)
      | none =>
        let r := axisCheck imp rest axes
        (r.1, "Gap detected - missing required axis" ::
              "Attempted axis imputation" :: r.2.1,
         ("Missing required axis: " ++ ax) :: r.2.2)

/-- Modelled from the spec (§4.1 step 4): the next candidate algorithm
after the primary one, taken from `algorithmsAvailable` in preference
order. -/
def alternateAlgo (a : Agent) (algoId : String) : Option String :=
  (a.algorithmsAvailable.filter (fun x => x ≠ algoId)).head?

/-- The algorithm ids actually attempted by the execution step: the
primary, then — only if the primary fails and an alternate exists — one
retry (spec §4.1 step 4: "retry once with the next candidate ... do not
retry indefinitely"). -/
def attemptedAlgos (P : Provider) (a : Agent) (algoId : String) (axes : Axes) :
    List String :=
  match P.exec algoId axes with
  | some _ => [algoId]
  | none =>
    match alternateAlgo a algoId with
    | some alt => [algoId, alt]
    | none => [algoId]

/-- Modelled from the spec (§4.1 step 4): algorithm execution with
single-retry failover.  Returns the computed value, the failure-related
actions, and the error (present only when all attempts failed). -/
def execStep (P : Provider) (a : Agent) (algoId : String) (axes : Axes) :
    Option ℚ × List String × Option String :=
  match P.exec algoId axes with
  | some v => (some v, [], none)
  | none =>
    match alternateAlgo a algoId with
    | some alt =>
      match P.exec alt axes with
      | some v =>
        (some v, ["Algorithm execution failed", "Attempting alternate algorithm"], none)
      | none =>
        (none, ["Algorithm execution failed", "Attempting alternate algorithm",
                "Algorithm execution failed"], some "AlgorithmFailure")
    | none => (none, ["Algorithm execution failed"], some "AlgorithmFailure")

/-- Is the item's classification handled by this agent (spec §4.1
step 2: in `domainCoverage`, or resolvable via the taxonomy map)? -/
def domainOk (a : Agent) (tax : List String) (item : Item) : Bool :=
  a.domainCoverage.contains item.pillar || tax.contains item.pillar

/-- First peer whose domain coverage matches the item's classification
(tie-break: first match in registration order, the documented policy
choice of spec §9). -/
def findPeer (peers : List Agent) (item : Item) : Option Agent :=
  peers.find? (fun p => p.domainCoverage.contains item.pillar)

/-- Confidence penalty applied to a result adopted from a peer
escalation (spec §4.1 step 5: escalated results must report confidence
strictly lower than a fully-covered direct computation). -/
def escalationPenalty : ℚ := 9 / 10

/-- Modelled from the spec: the non-escalating path of `ProcessQuery`
(steps 1, 3, 4, 5 of spec §4.1): axis completeness check with
imputation, algorithm execution with single retry, and on success a
confidence equal to the axis-coverage completeness. -/
def processDirect (P : Provider) (imp : String → Option ℚ) (a : Agent)
    (item : Item) (algoId : String) : ProcessResult × AgentState :=
  match axisCheck imp (P.requiredAxes algoId) item.axes with
  | (axes2, gapActs, warns) =>
    match execStep P a algoId axes2 with
    | (_, execActs, some e) =>
      (.mk none (coverage P algoId item) ("started" :: gapActs ++ execActs)
        warns (some e) [], .error)
    | (v, execActs, none) =>
      (.mk v (coverage P algoId item) ("started" :: gapActs ++ execActs)
        warns none [], .idle)

/-- Modelled from the spec: the unresolved-gap outcome (spec §4.1
step 2 / §7): domain gap with no eligible peer or depth exhausted;
`error` is set and confidence reflects only the axes actually
available. -/
def domainGapResult (P : Provider) (item : Item) (algoId kind : String) :
    ProcessResult × AgentState :=
  (.mk none (coverage P algoId item)
      ["started", "Domain expertise gap detected"] [] (some kind) [], .error)

/-- Modelled from the spec: adopt a peer's result after escalation
(spec §4.1 step 2: the call is recorded under `subcalls` and its result
adopted; step 5: the escalation penalty keeps escalated confidence
strictly below a fully-covered direct computation). -/
def escalate (depth : Nat) (sub : ProcessResult) : ProcessResult :=
  .mk sub.value (escalationPenalty * sub.confidence)
    ["started", "Domain expertise gap detected", "Escalating to peer agent"]
    sub.warnings sub.error [(depth + 1, sub)]

/-- Modelled from the spec: the recursion engine of `ProcessQuery`.
`gas` is a structural bound on the remaining escalation budget; the
public entry point `process_query` supplies `maxDepth - depth`, and the
depth ceiling itself is enforced by the explicit `depth < maxDepth`
guard (spec §9: "track `depth` as data and check it before each
escalation"). -/
def processQueryAux (P : Provider) (imp : String → Option ℚ)
    (tax : List String) (peers : List Agent) (maxDepth : Nat) :
    Nat → Agent → Item → String → Nat → ProcessResult × AgentState
  | 0, a, item, algoId, _ =>
    if domainOk a tax item then processDirect P imp a item algoId
    else
      match findPeer peers item with
      | none => domainGapResult P item algoId "DomainGap"
      | some _ => domainGapResult P item algoId "RecursionLimitExceeded"
  | g + 1, a, item, algoId, depth =>
    if domainOk a tax item then processDirect P imp a item algoId
    else
      match findPeer peers item with
      | none => domainGapResult P item algoId "DomainGap"
      | some peer =>
        if depth < maxDepth then
          let sub :=
            (processQueryAux P imp tax peers maxDepth g peer item algoId (depth + 1)).1
          (escalate depth sub, if sub.error.isSome then .error else .learning)
        else domainGapResult P item algoId "RecursionLimitExceeded"

/-- Modelled from the spec: `ProcessQuery(item, algorithmId, taxonomyMap,
ctx) → ProcessResult` (spec §4.1), returning the result together with the
agent's final operating state.  The recursion context's `depth`/`maxDepth`
are explicit arguments; `peers` is the read-only escalation candidate
list. -/
def process_query (P : Provider) (imp : String → Option ℚ)
    (tax : List String) (peers : List Agent) (a : Agent) (item : Item)
    (algoId : String) (depth maxDepth : Nat) : ProcessResult × AgentState :=
  processQueryAux P imp tax peers maxDepth (maxDepth - depth) a item algoId depth

/-! ## Background Task Manager, modelled from spec §4.2 and §5 -/

/-- Task lifecycle states (spec §3; `task-monitor.tsx` `Task.status`). -/
inductive TaskStatus where
  | pending
  | running
  | completed
  | failed
deriving DecidableEq

/-- Modelled from the spec: the result of an ensemble run (spec §4.2
Ensemble): the per-agent results and the task's terminal status. -/
structure EnsembleOutcome where
  individualResults : List ProcessResult
  status : TaskStatus

/-- Modelled from the spec (§4.2 Ensemble): run each selected agent's
`ProcessQuery` on the item and collect `individualResults`; the task
fails only if every agent run fails, otherwise it completes (partial
agent failure is recorded per-agent). -/
def ensemble_run (P : Provider) (imp : String → Option ℚ)
    (tax : List String) (peers : List Agent) (item : Item) (algoId : String)
    (maxDepth : Nat) (agents : List Agent) : EnsembleOutcome :=
  let rs := agents.map
    (fun a => (process_query P imp tax peers a item algoId 0 maxDepth).1)
  { individualResults := rs
    status := if rs.all (fun r => r.error.isSome) then .failed else .completed }

/-- Number of tasks currently in the `running` state. -/
def runningCount (s : List TaskStatus) : Nat :=
  (s.filter (fun t => t = .running)).length

/-- Modelled from the spec (§5): one step of the bounded worker pool.
A pending task may start only while the running count is below
`maxConcurrent`; a running task may finish into a terminal state.
The task registry is the list of task statuses. -/
inductive SchedStep (maxConcurrent : Nat) :
    List TaskStatus → List TaskStatus → Prop where
  | start (s : List TaskStatus) (i : Nat)
      (hp : s.get? i = some .pending)
      (hc : runningCount s < maxConcurrent) :
      SchedStep maxConcurrent s (s.set i .running)
  | finish (s : List TaskStatus) (i : Nat) (t : TaskStatus)
      (hr : s.get? i = some .running)
      (ht : t = .completed ∨ t = .failed) :
      SchedStep maxConcurrent s (s.set i t)

/-- A scheduler state reachable from an initial schedule through the
worker-pool step relation. -/
def SchedReachable (maxConcurrent : Nat) (init s : List TaskStatus) : Prop :=
  Relation.ReflTransGen (SchedStep maxConcurrent) init s

/-! ## `ApiClient.request` (from source: `frontend/src/lib/api.ts`) -/

/-- A thrown JavaScript value: either an `Error` with a message, or a
non-`Error` throw (`error instanceof Error` is false). -/
structure Exn where
  isError : Bool
  message : String
deriving DecidableEq

/-- An HTTP response as observed by `ApiClient.request`: the `ok` flag,
status line, the `detail` field of the error body (none when the error
body is not JSON or has no `detail`; `await response.json().catch(() => ({}))`),
and the outcome of parsing the body as JSON in the `ok` branch. -/
structure HttpResponse (α : Type) where
  ok : Bool
  status : Nat
  statusText : String
  errorDetail : Option String
  body : Except Exn α

/-- The outcome of the `fetch` call itself: either a thrown error or a
response. -/
inductive FetchOutcome (α : Type) where
  | fetchThrow (e : Exn)
  | response (r : HttpResponse α)

/-- The `ApiResponse<T>` shape of `api.ts`. -/
structure ApiResponse (α : Type) where
  data : Option α
  error : Option String
deriving DecidableEq

/-- `error instanceof Error ? error.message : 'Unknown error occurred'`. -/
def exnMessage (e : Exn) : String :=
  if e.isError then e.message else "Unknown error occurred"

/-- JavaScript `a || b` over the optional `detail` string (an absent or
empty `detail` falls back to the default). -/
def jsStringOr (s : Option String) (dflt : String) : String :=
  match s with
  | some d => if d = "" then dflt else d
  | none => dflt

/-- Shallow embedding of `ApiClient.request` (`api.ts` lines 269–297):
the whole body runs in a `try`; a non-OK response returns
`{ error: errorData.detail || "HTTP <status>: <statusText>" }`; an OK
response whose JSON parses returns `{ data }`; any thrown error
(fetch or JSON parse) is caught and returned as
`{ error: message-or-unknown }`. -/
def request {α : Type} (f : FetchOutcome α) : ApiResponse α :=
  match f with
  | .fetchThrow e => { data := none, error := some (exnMessage e) }
  | .response r =>
    if r.ok then
      match r.body with
      | .ok d => { data := some d, error := none }
      | .error e => { data := none, error := some (exnMessage e) }
    else
      { data := none
        error := some (jsStringOr r.errorDetail
          ("HTTP " ++ toString r.status ++ ": " ++ r.statusText)) }

/-! ## Pillar-level taxonomy (from source: `pillar-levels-explorer.tsx`) -/

/-- `domain_type` values occurring in `PILLAR_LEVELS` / `DOMAIN_INFO`. -/
inductive DomainType where
  | mathematical
  | computational
  | physical
  | biological
  | social
  | humanities
  | engineering
  | business
  | legal
  | interdisciplinary
deriving DecidableEq

/-- One `PillarLevel` record of `pillar-levels-explorer.tsx`; the string
id `"PLnn"` is embedded as the number `nn`, and `parent` likewise
(descriptions are omitted — no claim mentions them). -/
structure PillarEntry where
  id : Nat
  name : String
  parent : Option Nat
  domain_type : DomainType
deriving DecidableEq

set_option maxHeartbeats 1000000

/-- The `PILLAR_LEVELS` table (`pillar-levels-explorer.tsx` lines
644–751), all 87 entries in source order. -/
def PILLAR_LEVELS : List PillarEntry := [
  ⟨1, "Pure Mathematics", none, .mathematical⟩,
  ⟨2, "Applied Mathematics", some 1, .mathematical⟩,
  ⟨3, "Logic & Proof Theory", some 1, .mathematical⟩,
  ⟨4, "Geometry & Topology", some 1, .mathematical⟩,
  ⟨5, "Calculus & Analysis", some 1, .mathematical⟩,
  ⟨6, "Discrete Mathematics", some 1, .mathematical⟩,
  ⟨7, "Probability & Statistics", some 2, .mathematical⟩,
  ⟨8, "Numerical Methods", some 2, .mathematical⟩,
  ⟨9, "Mathematical Physics", some 2, .mathematical⟩,
  ⟨10, "Operations Research", some 2, .mathematical⟩,
  ⟨11, "Computer Science Fundamentals", none, .computational⟩,
  ⟨12, "Software Engineering", some 11, .computational⟩,
  ⟨13, "Artificial Intelligence", some 11, .computational⟩,
  ⟨14, "Database Systems", some 11, .computational⟩,
  ⟨15, "Computer Networks", some 11, .computational⟩,
  ⟨16, "Cybersecurity", some 11, .computational⟩,
  ⟨17, "Human-Computer Interaction", some 11, .computational⟩,
  ⟨18, "Computer Graphics", some 11, .computational⟩,
  ⟨19, "Quantum Computing", some 11, .computational⟩,
  ⟨20, "Bioinformatics", some 11, .computational⟩,
  ⟨21, "Physics", none, .physical⟩,
  ⟨22, "Classical Mechanics", some 21, .physical⟩,
  ⟨23, "Quantum Mechanics", some 21, .physical⟩,
  ⟨24, "Thermodynamics", some 21, .physical⟩,
  ⟨25, "Electromagnetism", some 21, .physical⟩,
  ⟨26, "Relativity", some 21, .physical⟩,
  ⟨27, "Astronomy & Astrophysics", some 21, .physical⟩,
  ⟨28, "Chemistry", none, .physical⟩,
  ⟨29, "Materials Science", some 28, .physical⟩,
  ⟨30, "Earth Sciences", none, .physical⟩,
  ⟨31, "Biology", none, .biological⟩,
  ⟨32, "Molecular Biology", some 31, .biological⟩,
  ⟨33, "Genetics", some 31, .biological⟩,
  ⟨34, "Ecology", some 31, .biological⟩,
  ⟨35, "Evolutionary Biology", some 31, .biological⟩,
  ⟨36, "Neuroscience", some 31, .biological⟩,
  ⟨37, "Medicine", some 31, .biological⟩,
  ⟨38, "Pharmacology", some 37, .biological⟩,
  ⟨39, "Biotechnology", some 31, .biological⟩,
  ⟨40, "Agricultural Science", some 31, .biological⟩,
  ⟨41, "Psychology", none, .social⟩,
  ⟨42, "Sociology", none, .social⟩,
  ⟨43, "Anthropology", none, .social⟩,
  ⟨44, "Economics", none, .social⟩,
  ⟨45, "Political Science", none, .social⟩,
  ⟨46, "International Relations", some 45, .social⟩,
  ⟨47, "Public Policy", some 45, .social⟩,
  ⟨48, "Education", none, .social⟩,
  ⟨49, "Communication Studies", none, .social⟩,
  ⟨50, "Urban Planning", none, .social⟩,
  ⟨51, "Philosophy", none, .humanities⟩,
  ⟨52, "Ethics", some 51, .humanities⟩,
  ⟨53, "History", none, .humanities⟩,
  ⟨54, "Literature", none, .humanities⟩,
  ⟨55, "Linguistics", none, .humanities⟩,
  ⟨56, "Art History", none, .humanities⟩,
  ⟨57, "Music Theory", none, .humanities⟩,
  ⟨58, "Religious Studies", none, .humanities⟩,
  ⟨59, "Cultural Studies", none, .humanities⟩,
  ⟨60, "Archaeology", some 53, .humanities⟩,
  ⟨61, "Engineering", none, .engineering⟩,
  ⟨62, "Mechanical Engineering", some 61, .engineering⟩,
  ⟨63, "Electrical Engineering", some 61, .engineering⟩,
  ⟨64, "Civil Engineering", some 61, .engineering⟩,
  ⟨65, "Chemical Engineering", some 61, .engineering⟩,
  ⟨66, "Aerospace Engineering", some 61, .engineering⟩,
  ⟨67, "Biomedical Engineering", some 61, .engineering⟩,
  ⟨68, "Environmental Engineering", some 61, .engineering⟩,
  ⟨69, "Industrial Engineering", some 61, .engineering⟩,
  ⟨70, "Nuclear Engineering", some 61, .engineering⟩,
  ⟨71, "Business Administration", none, .business⟩,
  ⟨72, "Finance", some 71, .business⟩,
  ⟨73, "Marketing", some 71, .business⟩,
  ⟨74, "Operations Management", some 71, .business⟩,
  ⟨75, "Entrepreneurship", some 71, .business⟩,
  ⟨76, "Human Resources", some 71, .business⟩,
  ⟨77, "Information Systems", some 71, .business⟩,
  ⟨78, "Law", none, .legal⟩,
  ⟨79, "Constitutional Law", some 78, .legal⟩,
  ⟨80, "Criminal Law", some 78, .legal⟩,
  ⟨81, "Commercial Law", some 78, .legal⟩,
  ⟨82, "International Law", some 78, .legal⟩,
  ⟨83, "Systems Science", none, .interdisciplinary⟩,
  ⟨84, "Cognitive Science", none, .interdisciplinary⟩,
  ⟨85, "Data Science", none, .interdisciplinary⟩,
  ⟨86, "Sustainability Science", none, .interdisciplinary⟩,
  ⟨87, "Digital Humanities", none, .interdisciplinary⟩]

/-- The `count` field of `DOMAIN_INFO` (`pillar-levels-explorer.tsx`
lines 753–764), keyed by domain. -/
def DOMAIN_INFO_count : DomainType → Nat
  | .mathematical => 10
  | .computational => 10
  | .physical => 10
  | .biological => 10
  | .social => 10
  | .humanities => 10
  | .engineering => 10
  | .business => 7
  | .legal => 5
  | .interdisciplinary => 5

/-- The domain keys of `DOMAIN_INFO`, in source order. -/
def DOMAIN_INFO_keys : List DomainType :=
  [.mathematical, .computational, .physical, .biological, .social,
   .humanities, .engineering, .business, .legal, .interdisciplinary]

/-! ## Helper lemmas -/

lemma coverage_nonneg (P : Provider) (algoId : String) (item : Item) :
    0 ≤ coverage P algoId item := by
  unfold coverage
  split
  · norm_num
  · positivity

lemma coverage_le_one (P : Provider) (algoId : String) (item : Item) :
    coverage P algoId item ≤ 1 := by
  unfold coverage
  split
  · exact le_refl 1
  · rename_i h
    rw [div_le_one (by exact_mod_cast Nat.pos_of_ne_zero h)]
    exact_mod_cast List.length_filter_le _ _

/-- Full axis coverage gives coverage completeness exactly 1. -/
lemma coverage_eq_one_of_full (P : Provider) (algoId : String) (item : Item)
    (h : ∀ ax ∈ P.requiredAxes algoId, hasAxis item.axes ax = true) :
    coverage P algoId item = 1 := by
  unfold coverage
  split
  · rfl
  · rename_i hne
    have hfilter : (P.requiredAxes algoId).filter (fun ax => hasAxis item.axes ax)
        = P.requiredAxes algoId := List.filter_eq_self.mpr h
    rw [hfilter, div_self (by exact_mod_cast hne)]

/-- A list with a member falsifying the predicate loses length under
`filter`. -/
lemma length_filter_lt_of_mem_not_pred {α : Type} {l : List α} {p : α → Bool}
    {x : α} (hx : x ∈ l) (hpx : p x = false) :
    (l.filter p).length < l.length := by
  induction l with
  | nil => exact absurd hx (List.not_mem_nil x)
  | cons a l ih =>
    rcases List.mem_cons.mp hx with rfl | hx'
    · simp only [List.filter_cons, hpx, List.length_cons]
      exact Nat.lt_succ_of_le (List.length_filter_le p l)
    · simp only [List.filter_cons, List.length_cons]
      split
      · exact Nat.succ_lt_succ (ih hx')
      · exact Nat.lt_succ_of_lt (ih hx')

/-- A missing required axis makes coverage completeness strictly less
than 1. -/
lemma coverage_lt_one_of_missing (P : Provider) (algoId : String) (item : Item)
    (ax : String) (hreq : ax ∈ P.requiredAxes algoId)
    (hmiss : hasAxis item.axes ax = false) :
    coverage P algoId item < 1 := by
  unfold coverage
  split
  · rename_i h
    exact absurd (List.length_eq_zero.mp h ▸ hreq) (List.not_mem_nil ax)
  · rename_i hne
    rw [div_lt_one (by exact_mod_cast Nat.pos_of_ne_zero hne)]
    exact_mod_cast length_filter_lt_of_mem_not_pred hreq hmiss

/-- Confidence produced by the recursion engine always lies in `[0, 1]`. -/
lemma processQueryAux_confidence_bounds (P : Provider) (imp : String → Option ℚ)
    (tax : List String) (peers : List Agent) (maxDepth : Nat) :
    ∀ (gas : Nat) (a : Agent) (item : Item) (algoId : String) (depth : Nat),
      0 ≤ (processQueryAux P imp tax peers maxDepth gas a item algoId depth).1.confidence ∧
      (processQueryAux P imp tax peers maxDepth gas a item algoId depth).1.confidence ≤ 1 := by
  intro gas
  induction gas with
  | zero =>
    intro a item algoId depth
    rw [processQueryAux]
    split
    · unfold processDirect
      split
      split <;> simp [coverage_nonneg, coverage_le_one]
    · split
      · simp [domainGapResult, coverage_nonneg, coverage_le_one]
      · simp [domainGapResult, coverage_nonneg, coverage_le_one]
  | succ g ih =>
    intro a item algoId depth
    rw [processQueryAux]
    split
    · unfold processDirect
      split
      split <;> simp [coverage_nonneg, coverage_le_one]
    · split
      · simp [domainGapResult, coverage_nonneg, coverage_le_one]
      · split
        · rename_i peer _ _
          have h := ih peer item algoId (depth + 1)
          simp only [escalate, ProcessResult.confidence_mk, escalationPenalty]
          constructor
          · nlinarith [h.1, h.2]
          · nlinarith [h.1, h.2]
        · simp [domainGapResult, coverage_nonneg, coverage_le_one]

/-! ## Claim C9: the pillar-level taxonomy tables -/

/-- C9: `PILLAR_LEVELS` has exactly 87 entries whose ids are the
pairwise-distinct `PL01`–`PL87`; every non-null `parent` names the id of
another entry in the table; and for every `DOMAIN_INFO` key the recorded
count equals the number of `PILLAR_LEVELS` entries of that domain, the
counts summing to 87. -/
theorem pillar_levels_wellformed :
    PILLAR_LEVELS.length = 87
    ∧ PILLAR_LEVELS.map (fun e => e.id) = List.range' 1 87
    ∧ (PILLAR_LEVELS.map (fun e => e.id)).Nodup
    ∧ (PILLAR_LEVELS.all (fun e =>
        match e.parent with
        | none => true
        | some p => (PILLAR_LEVELS.map (fun x => x.id)).contains p)) = true
    ∧ (DOMAIN_INFO_keys.all (fun d =>
        ((PILLAR_LEVELS.filter (fun e => e.domain_type = d)).length
          = DOMAIN_INFO_count d : Bool))) = true
    ∧ (DOMAIN_INFO_keys.map DOMAIN_INFO_count).sum = 87 := by
  refine ⟨by decide, by decide, by decide, by decide, by decide, by decide⟩

/-! ## Claim C10: `ApiClient.request` error handling -/

/-- C10: `ApiClient.request` never propagates an exception: every fetch
outcome yields an `ApiResponse`; a thrown error — from the `fetch` call
itself or from the JSON parse of an OK response — comes back with `error`
equal to the exception's message (or `"Unknown error occurred"`); a
non-OK response comes back with `error` equal to the body's `detail` or
an `"HTTP <status>: <statusText>"` string and no data; and `data` is set
exactly on an OK response with a parsed body. -/
theorem apiclient_request_never_throws {α : Type} :
    (∀ f : FetchOutcome α, (request f).data.isSome ∨ (request f).error.isSome)
    ∧ (∀ e : Exn, (request (α := α) (.fetchThrow e)).data = none
        ∧ (request (α := α) (.fetchThrow e)).error
            = some (if e.isError then e.message else "Unknown error occurred"))
    ∧ (∀ (r : HttpResponse α) (e : Exn), r.ok = true → r.body = .error e →
        (request (.response r)).data = none
        ∧ (request (.response r)).error
            = some (if e.isError then e.message else "Unknown error occurred"))
    ∧ (∀ r : HttpResponse α, r.ok = false →
        (request (.response r)).data = none
        ∧ (request (.response r)).error
            = some (jsStringOr r.errorDetail
                ("HTTP " ++ toString r.status ++ ": " ++ r.statusText)))
    ∧ (∀ f : FetchOutcome α, (request f).data.isSome →
        ∃ r d, f = .response r ∧ r.ok = true ∧ r.body = .ok d
          ∧ request f = { data := some d, error := none }) := by
  refine ⟨?_, ?_, ?_, ?_, ?_⟩
  · intro f
    match f with
    | .fetchThrow e => simp [request]
    | .response r =>
      by_cases hok : r.ok
      · match hb : r.body with
        | .ok d => simp [request, hok, hb]
        | .error e => simp [request, hok, hb]
      · simp [request, hok]
  · intro e
    simp [request, exnMessage]
  · intro r e hok hb
    simp [request, hok, hb, exnMessage]
  · intro r hok
    simp [request, hok]
  · intro f hdata
    match f with
    | .fetchThrow e => simp [request] at hdata
    | .response r =>
      by_cases hok : r.ok
      · match hb : r.body with
        | .ok d =>
          exact ⟨r, d, rfl, hok, hb, by simp [request, hok, hb]⟩
        | .error e => simp [request, hok, hb] at hdata
      · simp [request, hok] at hdata

/-- Witness for C10 at concrete outcomes: a thrown `Error` from `fetch`
is converted into an error response; a JSON parse failure on an OK
response surfaces the parse exception's message; and a 404 without
`detail` yields the HTTP fallback string. -/
theorem apiclient_request_never_throws_witness :
    (request (α := Nat) (.fetchThrow ⟨true, "network down"⟩)).error = some "network down"
    ∧ (request (α := Nat)
        (.response ⟨true, 200, "OK", none, .error ⟨true, "Unexpected token"⟩⟩)).error
        = some "Unexpected token"
    ∧ (request (α := Nat)
        (.response ⟨false, 404, "Not Found", none, .error ⟨true, "x"⟩⟩)).error
        = some "HTTP 404: Not Found" := by
  refine ⟨?_, ?_, ?_⟩
  · exact (apiclient_request_never_throws.2.1 ⟨true, "network down"⟩).2
  · exact (apiclient_request_never_throws.2.2.1
      ⟨true, 200, "OK", none, .error ⟨true, "Unexpected token"⟩⟩
      ⟨true, "Unexpected token"⟩ rfl rfl).2
  · exact ((apiclient_request_never_throws.2.2.2.1
      ⟨false, 404, "Not Found", none, .error ⟨true, "x"⟩⟩) rfl).2

/-! ## Claim C7: unit-interval invariant -/

/-- C7 counterexample: the claim "every axis-derived score lies in
`[0.0, 1.0]`" fails on the source's own `pillar_function`: on the input
suggested by the axes-visualizer UI (weights `0.8, 0.6, 0.9`, pillar
values `0.7, 0.8, 0.5`) the score is `1.49 > 1`. -/
theorem pillar_function_exceeds_unit_interval :
    pillar_function [4/5, 3/5, 9/10] [7/10, 4/5, 1/2] = 149/100
    ∧ ¬ (pillar_function [4/5, 3/5, 9/10] [7/10, 4/5, 1/2] ≤ 1) := by
  constructor
  · norm_num [pillar_function]
  · norm_num [pillar_function]

/-- C7 (amended): every `ProcessResult.confidence` produced by
`process_query` lies in `[0.0, 1.0]`; axis-derived scores are unclamped
weighted sums and are not confined to the unit interval. -/
theorem process_query_confidence_in_unit_interval (P : Provider)
    (imp : String → Option ℚ) (tax : List String) (peers : List Agent)
    (a : Agent) (item : Item) (algoId : String) (depth maxDepth : Nat) :
    0 ≤ (process_query P imp tax peers a item algoId depth maxDepth).1.confidence
    ∧ (process_query P imp tax peers a item algoId depth maxDepth).1.confidence ≤ 1 :=
  processQueryAux_confidence_bounds P imp tax peers maxDepth
    (maxDepth - depth) a item algoId depth

/-! ## Claim C1: recursion-depth invariant -/

/-- Depth discipline of a result's escalation tree rooted at recursion
depth `d`: every subcall record carries depth exactly `d + 1`, stays
within `maxD`, and satisfies the same discipline recursively. -/
inductive SubDepthOK (maxD : Nat) : Nat → ProcessResult → Prop where
  | mk (d : Nat) (v : Option ℚ) (c : ℚ) (acts warns : List String)
      (err : Option String) (subs : List (Nat × ProcessResult))
      (hdepth : ∀ p ∈ subs, p.1 = d + 1 ∧ p.1 ≤ maxD)
      (hrec : ∀ p ∈ subs, SubDepthOK maxD p.1 p.2) :
      SubDepthOK maxD d (.mk v c acts warns err subs)

/-- The recursion engine respects the depth discipline whenever it
starts within the ceiling. -/
lemma processQueryAux_subDepthOK (P : Provider) (imp : String → Option ℚ)
    (tax : List String) (peers : List Agent) (maxDepth : Nat) :
    ∀ (gas : Nat) (a : Agent) (item : Item) (algoId : String) (depth : Nat),
      depth ≤ maxDepth →
      SubDepthOK maxDepth depth
        (processQueryAux P imp tax peers maxDepth gas a item algoId depth).1 := by
  intro gas
  induction gas with
  | zero =>
    intro a item algoId depth _
    rw [processQueryAux]
    split
    · unfold processDirect
      split
      split <;> exact SubDepthOK.mk _ _ _ _ _ _ _ (by simp) (by simp)
    · split
      · exact SubDepthOK.mk _ _ _ _ _ _ _ (by simp) (by simp)
      · exact SubDepthOK.mk _ _ _ _ _ _ _ (by simp) (by simp)
  | succ g ih =>
    intro a item algoId depth _
    rw [processQueryAux]
    split
    · unfold processDirect
      split
      split <;> exact SubDepthOK.mk _ _ _ _ _ _ _ (by simp) (by simp)
    · split
      · exact SubDepthOK.mk _ _ _ _ _ _ _ (by simp) (by simp)
      · split
        · rename_i peer _ hlt
          have hsub := ih peer item algoId (depth + 1) hlt
          cases hres : (processQueryAux P imp tax peers maxDepth g peer item algoId
              (depth + 1)).1 with
          | mk v c acts warns err subs =>
            refine SubDepthOK.mk _ _ _ _ _ _ _ ?_ ?_
            · intro p hp
              simp only [List.mem_singleton] at hp
              subst hp
              exact ⟨rfl, hlt⟩
            · intro p hp
              simp only [List.mem_singleton] at hp
              subst hp
              exact hres ▸ hsub
        · exact SubDepthOK.mk _ _ _ _ _ _ _ (by simp) (by simp)

/-- C1: starting a `process_query` call tree at `depth ≤ maxDepth`, every
escalation increments the recorded depth by exactly 1 and the depth never
exceeds `maxDepth` anywhere in the `subcalls` tree; and when the ceiling
is reached while a domain gap still needs escalation to an eligible peer,
the call returns an unresolved-gap error with no further subcall. -/
theorem process_query_depth_invariant (P : Provider) (imp : String → Option ℚ)
    (tax : List String) (peers : List Agent) (a : Agent) (item : Item)
    (algoId : String) (depth maxDepth : Nat) (hd : depth ≤ maxDepth) :
    SubDepthOK maxDepth depth
      (process_query P imp tax peers a item algoId depth maxDepth).1
    ∧ (domainOk a tax item = false → (findPeer peers item).isSome →
        depth = maxDepth →
        (process_query P imp tax peers a item algoId depth maxDepth).1.error.isSome
        ∧ (process_query P imp tax peers a item algoId depth maxDepth).1.subcalls = []) := by
  constructor
  · exact processQueryAux_subDepthOK P imp tax peers maxDepth
      (maxDepth - depth) a item algoId depth hd
  · intro hdom hpeer hceil
    subst hceil
    unfold process_query
    rw [Nat.sub_self, processQueryAux, hdom]
    simp only [Bool.false_eq_true, if_false]
    obtain ⟨peer, hp⟩ := Option.isSome_iff_exists.mp hpeer
    rw [hp]
    simp [domainGapResult]

/-- Witness for C1 at a concrete call: an agent with no coverage, one
eligible peer, `depth = 0`, `maxDepth = 2`. -/
theorem process_query_depth_invariant_witness :
    (0 : Nat) ≤ 2 ∧
    (SubDepthOK 2 0
      (process_query ⟨fun _ => [], fun _ _ => some 1⟩ (fun _ => none) []
        [⟨"peer", ["PL19"], []⟩] ⟨"a", [], []⟩ ⟨"PL19", []⟩ "algo" 0 2).1
    ∧ (domainOk ⟨"a", [], []⟩ [] ⟨"PL19", []⟩ = false →
        (findPeer [⟨"peer", ["PL19"], []⟩] ⟨"PL19", []⟩).isSome →
        (0 : Nat) = 2 →
        (process_query ⟨fun _ => [], fun _ _ => some 1⟩ (fun _ => none) []
          [⟨"peer", ["PL19"], []⟩] ⟨"a", [], []⟩ ⟨"PL19", []⟩ "algo" 0 2).1.error.isSome
        ∧ (process_query ⟨fun _ => [], fun _ _ => some 1⟩ (fun _ => none) []
          [⟨"peer", ["PL19"], []⟩] ⟨"a", [], []⟩ ⟨"PL19", []⟩ "algo" 0 2).1.subcalls = [])) :=
  ⟨by decide,
   process_query_depth_invariant ⟨fun _ => [], fun _ _ => some 1⟩ (fun _ => none) []
     [⟨"peer", ["PL19"], []⟩] ⟨"a", [], []⟩ ⟨"PL19", []⟩ "algo" 0 2 (by decide)⟩

/-! ## Claim C3: missing-axis gap handling -/

lemma hasAxis_append (axes : Axes) (n : String) (v : ℚ) (ax : String) :
    hasAxis (axes ++ [(n, v)]) ax = (hasAxis axes ax || decide (n = ax)) := by
  simp [hasAxis, List.any_append]

/-- Every missing required axis contributes a gap-detected action
immediately followed by an imputation-attempted action. -/
lemma axisCheck_gap_actions (imp : String → Option ℚ) :
    ∀ (req : List String) (axes : Axes) (ax : String), ax ∈ req →
      hasAxis axes ax = false →
      List.Sublist ["Gap detected - missing required axis", "Attempted axis imputation"]
        (axisCheck imp req axes).2.1 := by
  intro req
  induction req with
  | nil => intro axes ax h; exact absurd h (List.not_mem_nil ax)
  | cons ax' rest ih =>
    intro axes ax hmem hmiss
    rw [axisCheck]
    by_cases hcov : hasAxis axes ax' = true
    · rw [if_pos hcov]
      rcases List.mem_cons.mp hmem with rfl | hmem'
      · exact absurd hcov (by simp [hmiss])
      · exact ih axes ax hmem' hmiss
    · rw [if_neg hcov]
      match himp : imp ax' with
      | some v =>
        exact List.Sublist.cons₂ _ (List.Sublist.cons₂ _ (List.nil_sublist _))
      | none =>
        exact List.Sublist.cons₂ _ (List.Sublist.cons₂ _ (List.nil_sublist _))

/-- A missing required axis that imputation cannot resolve yields the
warning `"Missing required axis: <name>"`. -/
lemma axisCheck_warning (imp : String → Option ℚ) :
    ∀ (req : List String) (axes : Axes) (ax : String), ax ∈ req →
      hasAxis axes ax = false → imp ax = none →
      ("Missing required axis: " ++ ax) ∈ (axisCheck imp req axes).2.2 := by
  intro req
  induction req with
  | nil => intro axes ax h; exact absurd h (List.not_mem_nil ax)
  | cons ax' rest ih =>
    intro axes ax hmem hmiss himp
    rw [axisCheck]
    by_cases hcov : hasAxis axes ax' = true
    · rw [if_pos hcov]
      rcases List.mem_cons.mp hmem with rfl | hmem'
      · exact absurd hcov (by simp [hmiss])
      · exact ih axes ax hmem' hmiss himp
    · rw [if_neg hcov]
      match himp' : imp ax' with
      | some v =>
        have hne : ax' ≠ ax := by
          intro h
          rw [h, himp] at himp'
          exact Option.noConfusion himp'
        have hmem' : ax ∈ rest := by
          rcases List.mem_cons.mp hmem with rfl | hmem'
          · exact absurd rfl hne
          · exact hmem'
        have hmiss' : hasAxis (axes ++ [(ax', v)]) ax = false := by
          rw [hasAxis_append, hmiss]
          simp [hne]
        exact ih (axes ++ [(ax', v)]) ax hmem' hmiss' himp
      | none =>
        rcases List.mem_cons.mp hmem with rfl | hmem'
        · exact List.mem_cons_self _ _
        · exact List.mem_cons_of_mem _ (ih axes ax hmem' hmiss himp)

/-- Component-wise description of `processDirect`: actions, warnings,
confidence, error and final state in terms of `axisCheck` and
`execStep`. -/
lemma processDirect_spec (P : Provider) (imp : String → Option ℚ) (a : Agent)
    (item : Item) (algoId : String) :
    (processDirect P imp a item algoId).1.actions
      = "started" :: (axisCheck imp (P.requiredAxes algoId) item.axes).2.1
        ++ (execStep P a algoId (axisCheck imp (P.requiredAxes algoId) item.axes).1).2.1
    ∧ (processDirect P imp a item algoId).1.warnings
      = (axisCheck imp (P.requiredAxes algoId) item.axes).2.2
    ∧ (processDirect P imp a item algoId).1.confidence = coverage P algoId item
    ∧ (processDirect P imp a item algoId).1.error
      = (execStep P a algoId (axisCheck imp (P.requiredAxes algoId) item.axes).1).2.2
    ∧ ((execStep P a algoId (axisCheck imp (P.requiredAxes algoId) item.axes).1).2.2
          ≠ none → (processDirect P imp a item algoId).2 = .error)
    ∧ ((execStep P a algoId (axisCheck imp (P.requiredAxes algoId) item.axes).1).2.2
          = none → (processDirect P imp a item algoId).2 = .idle) := by
  unfold processDirect
  rcases hA : axisCheck imp (P.requiredAxes algoId) item.axes with ⟨axes2, gapActs, warns⟩
  rcases hE : execStep P a algoId axes2 with ⟨v, execActs, err⟩
  cases err <;> simp [hE]

/-- C3: when an item lacks a required axis, `process_query` records a
gap-detected action followed by an imputation-attempted action; when the
imputation cannot resolve the axis the warning
`"Missing required axis: <name>"` is added; and — provided the algorithm
still executes on the checked axes — the call returns without error with
confidence strictly reduced below a fully covered computation. -/
theorem process_query_missing_axis_handling (P : Provider)
    (imp : String → Option ℚ) (tax : List String) (peers : List Agent)
    (a : Agent) (item : Item) (algoId : String) (depth maxDepth : Nat)
    (ax : String)
    (hdom : domainOk a tax item = true)
    (hreq : ax ∈ P.requiredAxes algoId)
    (hmiss : hasAxis item.axes ax = false) :
    List.Sublist ["Gap detected - missing required axis", "Attempted axis imputation"]
      (process_query P imp tax peers a item algoId depth maxDepth).1.actions
    ∧ (imp ax = none →
        ("Missing required axis: " ++ ax)
          ∈ (process_query P imp tax peers a item algoId depth maxDepth).1.warnings)
    ∧ ((execStep P a algoId
          (axisCheck imp (P.requiredAxes algoId) item.axes).1).2.2 = none →
        (process_query P imp tax peers a item algoId depth maxDepth).1.error = none
        ∧ (process_query P imp tax peers a item algoId depth maxDepth).1.confidence < 1) := by
  have hq : (process_query P imp tax peers a item algoId depth maxDepth)
      = processDirect P imp a item algoId := by
    unfold process_query
    cases maxDepth - depth with
    | zero => simp only [processQueryAux, if_pos hdom]
    | succ g => simp only [processQueryAux, if_pos hdom]
  obtain ⟨hacts, hwarns, hconf, herr, -, -⟩ := processDirect_spec P imp a item algoId
  refine ⟨?_, ?_, ?_⟩
  · rw [hq, hacts]
    exact List.Sublist.cons _
      ((axisCheck_gap_actions imp (P.requiredAxes algoId) item.axes ax hreq hmiss).trans
        (List.sublist_append_left _ _))
  · intro himp
    rw [hq, hwarns]
    exact axisCheck_warning imp (P.requiredAxes algoId) item.axes ax hreq hmiss himp
  · intro hexec
    rw [hq, herr, hconf]
    exact ⟨hexec, coverage_lt_one_of_missing P algoId item ax hreq hmiss⟩

/-- Witness for C3: an agent covering the item's pillar, an algorithm
requiring the absent axis `risk_tensor`, imputation unavailable, and an
execution that succeeds anyway. -/
theorem process_query_missing_axis_handling_witness :
    domainOk ⟨"a", ["PL19"], []⟩ [] ⟨"PL19", [("unified_system_function", 4/5)]⟩ = true
    ∧ "risk_tensor" ∈ (Provider.mk (fun _ => ["unified_system_function", "risk_tensor"])
        (fun _ _ => some (4/5))).requiredAxes "risk_assessment"
    ∧ hasAxis (Item.mk "PL19" [("unified_system_function", 4/5)]).axes "risk_tensor" = false
    ∧ (List.Sublist ["Gap detected - missing required axis", "Attempted axis imputation"]
        (process_query ⟨fun _ => ["unified_system_function", "risk_tensor"], fun _ _ => some (4/5)⟩
          (fun _ => none) [] [] ⟨"a", ["PL19"], []⟩
          ⟨"PL19", [("unified_system_function", 4/5)]⟩ "risk_assessment" 0 3).1.actions
      ∧ ((fun (_ : String) => (none : Option ℚ)) "risk_tensor" = none →
          ("Missing required axis: " ++ "risk_tensor")
            ∈ (process_query ⟨fun _ => ["unified_system_function", "risk_tensor"], fun _ _ => some (4/5)⟩
              (fun _ => none) [] [] ⟨"a", ["PL19"], []⟩
              ⟨"PL19", [("unified_system_function", 4/5)]⟩ "risk_assessment" 0 3).1.warnings)
      ∧ ((execStep ⟨fun _ => ["unified_system_function", "risk_tensor"], fun _ _ => some (4/5)⟩
            ⟨"a", ["PL19"], []⟩ "risk_assessment"
            (axisCheck (fun _ => none)
              ((fun (_ : String) => ["unified_system_function", "risk_tensor"]) "risk_assessment")
              [("unified_system_function", 4/5)]).1).2.2 = none →
          (process_query ⟨fun _ => ["unified_system_function", "risk_tensor"], fun _ _ => some (4/5)⟩
            (fun _ => none) [] [] ⟨"a", ["PL19"], []⟩
            ⟨"PL19", [("unified_system_function", 4/5)]⟩ "risk_assessment" 0 3).1.error = none
          ∧ (process_query ⟨fun _ => ["unified_system_function", "risk_tensor"], fun _ _ => some (4/5)⟩
            (fun _ => none) [] [] ⟨"a", ["PL19"], []⟩
            ⟨"PL19", [("unified_system_function", 4/5)]⟩ "risk_assessment" 0 3).1.confidence < 1)) :=
  ⟨by decide, by decide, by decide,
   process_query_missing_axis_handling
     ⟨fun _ => ["unified_system_function", "risk_tensor"], fun _ _ => some (4/5)⟩
     (fun _ => none) [] [] ⟨"a", ["PL19"], []⟩
     ⟨"PL19", [("unified_system_function", 4/5)]⟩ "risk_assessment" 0 3 "risk_tensor"
     (by decide) (by decide) (by decide)⟩

/-! ## Claim C4: algorithm-failure recovery -/

/-- C4: when the primary algorithm execution fails, the action
`"Algorithm execution failed"` is recorded; at most two execution
attempts are ever made; if an alternate algorithm exists the action
`"Attempting alternate algorithm"` is recorded and exactly the primary
and that one next candidate are attempted, and if the retry also fails
the call returns a non-nil error with the agent in the `Error` state;
with no alternate available the failure surfaces immediately. -/
theorem process_query_algorithm_failure_recovery (P : Provider)
    (imp : String → Option ℚ) (tax : List String) (peers : List Agent)
    (a : Agent) (item : Item) (algoId : String) (depth maxDepth : Nat)
    (hdom : domainOk a tax item = true)
    (hfail : P.exec algoId (axisCheck imp (P.requiredAxes algoId) item.axes).1 = none) :
    "Algorithm execution failed"
      ∈ (process_query P imp tax peers a item algoId depth maxDepth).1.actions
    ∧ (attemptedAlgos P a algoId
        (axisCheck imp (P.requiredAxes algoId) item.axes).1).length ≤ 2
    ∧ (∀ alt, alternateAlgo a algoId = some alt →
        "Attempting alternate algorithm"
          ∈ (process_query P imp tax peers a item algoId depth maxDepth).1.actions
        ∧ attemptedAlgos P a algoId
            (axisCheck imp (P.requiredAxes algoId) item.axes).1 = [algoId, alt]
        ∧ (P.exec alt (axisCheck imp (P.requiredAxes algoId) item.axes).1 = none →
            (process_query P imp tax peers a item algoId depth maxDepth).1.error.isSome
            ∧ (process_query P imp tax peers a item algoId depth maxDepth).2 = .error))
    ∧ (alternateAlgo a algoId = none →
        (process_query P imp tax peers a item algoId depth maxDepth).1.error.isSome
        ∧ (process_query P imp tax peers a item algoId depth maxDepth).2 = .error) := by
  have hq : (process_query P imp tax peers a item algoId depth maxDepth)
      = processDirect P imp a item algoId := by
    unfold process_query
    cases maxDepth - depth with
    | zero => simp only [processQueryAux, if_pos hdom]
    | succ g => simp only [processQueryAux, if_pos hdom]
  obtain ⟨hacts, -, -, herr, hstate, -⟩ := processDirect_spec P imp a item algoId
  refine ⟨?_, ?_, ?_, ?_⟩
  · rw [hq, hacts]
    unfold execStep
    rw [hfail]
    cases halt : alternateAlgo a algoId with
    | none => simp
    | some alt =>
      cases h2 : P.exec alt (axisCheck imp (P.requiredAxes algoId) item.axes).1 <;>
        simp [halt, h2]
  · unfold attemptedAlgos
    rw [hfail]
    cases halt : alternateAlgo a algoId <;> simp
  · intro alt halt
    refine ⟨?_, ?_, ?_⟩
    · rw [hq, hacts]
      unfold execStep
      rw [hfail]
      cases h2 : P.exec alt (axisCheck imp (P.requiredAxes algoId) item.axes).1 <;>
        simp [halt, h2]
    · unfold attemptedAlgos
      rw [hfail, halt]
    · intro h2
      have hex : (execStep P a algoId
          (axisCheck imp (P.requiredAxes algoId) item.axes).1).2.2
          = some "AlgorithmFailure" := by
        unfold execStep
        rw [hfail]
        simp [halt, h2]
      refine ⟨?_, ?_⟩
      · rw [hq, herr, hex]
        rfl
      · rw [hq]
        exact hstate (by rw [hex]; exact Option.noConfusion)
  · intro halt
    have hex : (execStep P a algoId
        (axisCheck imp (P.requiredAxes algoId) item.axes).1).2.2
        = some "AlgorithmFailure" := by
      unfold execStep
      rw [hfail]
      simp [halt]
    refine ⟨?_, ?_⟩
    · rw [hq, herr, hex]
      rfl
    · rw [hq]
      exact hstate (by rw [hex]; exact Option.noConfusion)

/-- Witness for C4: an agent whose primary algorithm
`"failing_algorithm"` always fails and whose alternate also fails. -/
theorem process_query_algorithm_failure_recovery_witness :
    domainOk ⟨"a", ["PL16"], ["failing_algorithm", "risk_assessment"]⟩ [] ⟨"PL16", []⟩ = true
    ∧ (Provider.mk (fun _ => []) (fun _ _ => none)).exec "failing_algorithm"
        (axisCheck (fun _ => none)
          ((Provider.mk (fun _ => []) (fun _ _ => none)).requiredAxes "failing_algorithm")
          (Item.mk "PL16" []).axes).1 = none
    ∧ ("Algorithm execution failed"
        ∈ (process_query ⟨fun _ => [], fun _ _ => none⟩ (fun _ => none) [] []
            ⟨"a", ["PL16"], ["failing_algorithm", "risk_assessment"]⟩ ⟨"PL16", []⟩
            "failing_algorithm" 0 3).1.actions
      ∧ (attemptedAlgos ⟨fun _ => [], fun _ _ => none⟩
          ⟨"a", ["PL16"], ["failing_algorithm", "risk_assessment"]⟩ "failing_algorithm"
          (axisCheck (fun _ => none) [] []).1).length ≤ 2) :=
  ⟨by decide, by decide,
   ⟨(process_query_algorithm_failure_recovery ⟨fun _ => [], fun _ _ => none⟩
      (fun _ => none) [] [] ⟨"a", ["PL16"], ["failing_algorithm", "risk_assessment"]⟩
      ⟨"PL16", []⟩ "failing_algorithm" 0 3 (by decide) (by decide)).1,
    (process_query_algorithm_failure_recovery ⟨fun _ => [], fun _ _ => none⟩
      (fun _ => none) [] [] ⟨"a", ["PL16"], ["failing_algorithm", "risk_assessment"]⟩
      ⟨"PL16", []⟩ "failing_algorithm" 0 3 (by decide) (by decide)).2.1⟩⟩

/-! ## Claim C2: the knowledge-discovery demo scenario -/

/-- Scenario fixture (spec §8 / `demo_test.md`): the discovery algorithm
requires exactly `pillar_function` and `level_hierarchy`; execution
averages the supplied axis contributions. -/
def demoProvider : Provider where
  requiredAxes := fun id =>
    if id = "ai_knowledge_discovery" then ["pillar_function", "level_hierarchy"] else []
  exec := fun _ axes =>
    if axes.length = 0 then none
    else some ((axes.map (fun av => av.2)).sum / (axes.length : ℚ))

/-- Scenario fixture: the demo item with
`{pillar_function: 0.9, level_hierarchy: 1.0}` (`demo_test.md`). -/
def demoItem : Item :=
  ⟨"PL19", [("pillar_function", 9/10), ("level_hierarchy", 1)]⟩

/-- Scenario fixture: an agent covering the item's pillar with the
discovery algorithm as primary. -/
def demoAgent : Agent :=
  ⟨"quantum_specialist", ["PL19"], ["ai_knowledge_discovery"]⟩

/-- C2: on the demo item with full coverage of the discovery algorithm's
required axes, `process_query` returns no error and a confidence in
`(0.7, 1.0]`. -/
theorem process_query_demo_scenario :
    (process_query demoProvider (fun _ => none) [] [] demoAgent demoItem
      "ai_knowledge_discovery" 0 3).1.error = none
    ∧ 7/10 < (process_query demoProvider (fun _ => none) [] [] demoAgent demoItem
      "ai_knowledge_discovery" 0 3).1.confidence
    ∧ (process_query demoProvider (fun _ => none) [] [] demoAgent demoItem
      "ai_knowledge_discovery" 0 3).1.confidence ≤ 1 := by
  have hq : (process_query demoProvider (fun _ => none) [] [] demoAgent demoItem
      "ai_knowledge_discovery" 0 3) = processDirect demoProvider (fun _ => none)
      demoAgent demoItem "ai_knowledge_discovery" := by
    unfold process_query
    simp only [processQueryAux]
    rw [if_pos (by decide)]
  rw [hq]
  obtain ⟨-, -, hconf, herr, -, -⟩ :=
    processDirect_spec demoProvider (fun _ => none) demoAgent demoItem "ai_knowledge_discovery"
  refine ⟨?_, ?_, ?_⟩
  · rw [herr]
    have : (axisCheck (fun _ => none)
        (demoProvider.requiredAxes "ai_knowledge_discovery") demoItem.axes).1
        = demoItem.axes := by
      simp [axisCheck, demoProvider, demoItem, hasAxis]
    rw [this]
    simp [execStep, demoProvider, demoItem]
  · rw [hconf]
    have h1 : coverage demoProvider "ai_knowledge_discovery" demoItem = 1 :=
      coverage_eq_one_of_full _ _ _ (by decide)
    rw [h1]
    norm_num
  · rw [hconf]
    exact coverage_le_one _ _ _

/-! ## Claim C5: ensemble aggregation -/

/-- C5: an ensemble run over `N` agents yields exactly `N` individual
results; it completes whenever at least one agent run succeeds; and it is
failed only when every agent run failed. -/
theorem ensemble_run_partial_failure (P : Provider) (imp : String → Option ℚ)
    (tax : List String) (peers : List Agent) (item : Item) (algoId : String)
    (maxDepth : Nat) (agents : List Agent) :
    (ensemble_run P imp tax peers item algoId maxDepth agents).individualResults.length
      = agents.length
    ∧ ((∃ r ∈ (ensemble_run P imp tax peers item algoId maxDepth agents).individualResults,
          r.error = none) →
        (ensemble_run P imp tax peers item algoId maxDepth agents).status = .completed)
    ∧ ((ensemble_run P imp tax peers item algoId maxDepth agents).status = .failed →
        ∀ r ∈ (ensemble_run P imp tax peers item algoId maxDepth agents).individualResults,
          r.error.isSome) := by
  by_cases hall : (agents.map
      (fun a => (process_query P imp tax peers a item algoId 0 maxDepth).1)).all
      (fun r => r.error.isSome) = true
  · refine ⟨by simp [ensemble_run], ?_, ?_⟩
    · rintro ⟨r, hr, herr⟩
      exfalso
      have hmem : r ∈ agents.map
          (fun a => (process_query P imp tax peers a item algoId 0 maxDepth).1) := by
        simpa [ensemble_run] using hr
      have := List.all_eq_true.mp hall r hmem
      rw [herr] at this
      simp at this
    · intro _ r hr
      have hmem : r ∈ agents.map
          (fun a => (process_query P imp tax peers a item algoId 0 maxDepth).1) := by
        simpa [ensemble_run] using hr
      exact List.all_eq_true.mp hall r hmem
  · refine ⟨by simp [ensemble_run], ?_, ?_⟩
    · intro _
      simp [ensemble_run, hall]
    · intro hfailed
      exfalso
      simp [ensemble_run, hall] at hfailed

/-- Witness for C5: two agents where the first succeeds, so the ensemble
completes with two individual results. -/
theorem ensemble_run_partial_failure_witness :
    (∃ r ∈ (ensemble_run ⟨fun _ => [], fun _ _ => some 1⟩ (fun _ => none) [] []
        ⟨"PL19", []⟩ "algo" 3
        [⟨"a1", ["PL19"], []⟩, ⟨"a2", [], []⟩]).individualResults, r.error = none)
    ∧ (ensemble_run ⟨fun _ => [], fun _ _ => some 1⟩ (fun _ => none) [] []
        ⟨"PL19", []⟩ "algo" 3
        [⟨"a1", ["PL19"], []⟩, ⟨"a2", [], []⟩]).status = .completed
    ∧ (ensemble_run ⟨fun _ => [], fun _ _ => some 1⟩ (fun _ => none) [] []
        ⟨"PL19", []⟩ "algo" 3
        [⟨"a1", ["PL19"], []⟩, ⟨"a2", [], []⟩]).individualResults.length = 2 :=
  ⟨by decide,
   (ensemble_run_partial_failure ⟨fun _ => [], fun _ _ => some 1⟩ (fun _ => none) [] []
      ⟨"PL19", []⟩ "algo" 3 [⟨"a1", ["PL19"], []⟩, ⟨"a2", [], []⟩]).2.1 (by decide),
   (ensemble_run_partial_failure ⟨fun _ => [], fun _ _ => some 1⟩ (fun _ => none) [] []
      ⟨"PL19", []⟩ "algo" 3 [⟨"a1", ["PL19"], []⟩, ⟨"a2", [], []⟩]).1⟩

/-! ## Claim C6: the concurrency ceiling -/

lemma runningCount_cons (t : TaskStatus) (s : List TaskStatus) :
    runningCount (t :: s) = runningCount s + (if t = .running then 1 else 0) := by
  unfold runningCount
  rw [List.filter_cons]
  split
  · rename_i h
    simp at h
    simp [h]
  · rename_i h
    simp at h
    simp [h]

lemma runningCount_set (s : List TaskStatus) :
    ∀ (i : Nat) (u v : TaskStatus), s.get? i = some u →
      runningCount (s.set i v) + (if u = .running then 1 else 0)
        = runningCount s + (if v = .running then 1 else 0) := by
  induction s with
  | nil => intro i u v h; simp at h
  | cons t ts ih =>
    intro i u v h
    cases i with
    | zero =>
      simp only [List.get?] at h
      injection h with h
      subst h
      simp only [List.set]
      rw [runningCount_cons, runningCount_cons]
      omega
    | succ j =>
      simp only [List.get?] at h
      simp only [List.set]
      rw [runningCount_cons, runningCount_cons]
      have := ih j u v h
      omega

/-- One scheduler step preserves the running-count ceiling. -/
lemma schedStep_preserves_ceiling (maxConcurrent : Nat)
    {s s' : List TaskStatus} (hstep : SchedStep maxConcurrent s s')
    (hs : runningCount s ≤ maxConcurrent) :
    runningCount s' ≤ maxConcurrent := by
  cases hstep with
  | start i hp hc =>
    have h := runningCount_set s i .pending .running hp
    simp at h
    omega
  | finish i t hr ht =>
    have h := runningCount_set s i .running t hr
    have hind : (if t = TaskStatus.running then 1 else 0) = 0 := by
      rcases ht with rfl | rfl <;> simp
    rw [hind] at h
    simp at h
    omega

lemma runningCount_replicate_pending (n : Nat) :
    runningCount (List.replicate n .pending) = 0 := by
  induction n with
  | zero => rfl
  | succ k ih => rw [List.replicate, runningCount_cons, ih]; simp

/-- C6: in every state of the Background Task Manager reachable from an
initial schedule of `n` pending tasks through the worker-pool step
relation, the number of `running` tasks never exceeds `maxConcurrent`. -/
theorem sched_running_le_maxConcurrent (maxConcurrent n : Nat)
    (s : List TaskStatus)
    (h : SchedReachable maxConcurrent (List.replicate n .pending) s) :
    runningCount s ≤ maxConcurrent := by
  induction h with
  | refl => rw [runningCount_replicate_pending]; exact Nat.zero_le _
  | tail _ hstep ih => exact schedStep_preserves_ceiling maxConcurrent hstep ih

/-- Witness for C6: with 10 scheduled tasks and `maxConcurrent = 3`, a
reachable state after one task start keeps the running count within 3. -/
theorem sched_running_le_maxConcurrent_witness :
    runningCount ((List.replicate 10 TaskStatus.pending).set 0 .running) ≤ 3 :=
  sched_running_le_maxConcurrent 3 10 _
    (Relation.ReflTransGen.tail Relation.ReflTransGen.refl
      (SchedStep.start _ 0 (by decide) (by decide)))

/-! ## Claim C8: imputation/escalation strictly lowers confidence -/

/-- Unfolding equation for the escalation branch of the recursion
engine. -/
lemma processQueryAux_escalate_eq (P : Provider) (imp : String → Option ℚ)
    (tax : List String) (peers : List Agent) (maxDepth g : Nat) (a : Agent)
    (item : Item) (algoId : String) (depth : Nat) (peer : Agent)
    (hdom : domainOk a tax item = false)
    (hp : findPeer peers item = some peer) (hlt : depth < maxDepth) :
    processQueryAux P imp tax peers maxDepth (g + 1) a item algoId depth
      = (escalate depth
          (processQueryAux P imp tax peers maxDepth g peer item algoId (depth + 1)).1,
         if (processQueryAux P imp tax peers maxDepth g peer item algoId
            (depth + 1)).1.error.isSome then .error else .learning) := by
  rw [processQueryAux]
  simp [hdom, hp, hlt]

/-- A fully covered direct computation reports confidence exactly 1. -/
lemma process_query_full_coverage_confidence (P : Provider)
    (imp : String → Option ℚ) (tax : List String) (peers : List Agent)
    (a : Agent) (item : Item) (algoId : String) (depth maxDepth : Nat)
    (hdom : domainOk a tax item = true)
    (hcov : ∀ ax ∈ P.requiredAxes algoId, hasAxis item.axes ax = true) :
    (process_query P imp tax peers a item algoId depth maxDepth).1.confidence = 1 := by
  have hq : (process_query P imp tax peers a item algoId depth maxDepth)
      = processDirect P imp a item algoId := by
    unfold process_query
    cases maxDepth - depth with
    | zero => simp only [processQueryAux, if_pos hdom]
    | succ g => simp only [processQueryAux, if_pos hdom]
  obtain ⟨-, -, hconf, -, -, -⟩ := processDirect_spec P imp a item algoId
  rw [hq, hconf]
  exact coverage_eq_one_of_full P algoId item hcov

/-- C8: on the same item and algorithm, a successful fully-covered
direct computation (no imputation, no escalation) reports confidence
strictly greater than a successful computation whose path either went
through peer escalation or had every required axis missing (fully
imputed). -/
theorem full_coverage_beats_escalated_or_imputed (P : Provider)
    (imp : String → Option ℚ) (tax : List String) (peers : List Agent)
    (aA aB : Agent) (item : Item) (algoId : String) (depth maxDepth : Nat)
    (hdomA : domainOk aA tax item = true)
    (hcov : ∀ ax ∈ P.requiredAxes algoId, hasAxis item.axes ax = true)
    (hsuccA : (process_query P imp tax peers aA item algoId depth maxDepth).1.error = none)
    (hsuccB : (process_query P imp tax peers aB item algoId depth maxDepth).1.error = none)
    (hpath : (domainOk aB tax item = false ∧ (findPeer peers item).isSome
                ∧ depth < maxDepth)
             ∨ (P.requiredAxes algoId ≠ []
                ∧ ∀ ax ∈ P.requiredAxes algoId, hasAxis item.axes ax = false)) :
    (process_query P imp tax peers aB item algoId depth maxDepth).1.confidence
      < (process_query P imp tax peers aA item algoId depth maxDepth).1.confidence := by
  rw [process_query_full_coverage_confidence P imp tax peers aA item algoId
    depth maxDepth hdomA hcov]
  rcases hpath with ⟨hdomB, hpeer, hlt⟩ | ⟨hne, hmiss⟩
  · obtain ⟨peer, hp⟩ := Option.isSome_iff_exists.mp hpeer
    obtain ⟨g, hg⟩ : ∃ g, maxDepth - depth = g + 1 :=
      ⟨maxDepth - depth - 1, by omega⟩
    unfold process_query
    rw [hg, processQueryAux_escalate_eq P imp tax peers maxDepth g aB item algoId
      depth peer hdomB hp hlt]
    simp only [escalate, ProcessResult.confidence_mk, escalationPenalty]
    have hb := processQueryAux_confidence_bounds P imp tax peers maxDepth g peer
      item algoId (depth + 1)
    nlinarith [hb.1, hb.2]
  · obtain ⟨ax, hax⟩ := List.exists_mem_of_ne_nil _ hne
    have h1 := hcov ax hax
    have h2 := hmiss ax hax
    rw [h1] at h2
    exact absurd h2 (by simp)

/-- Witness for C8: agent `aA` covers the item directly (confidence 1);
agent `aB` must escalate to a peer, ending strictly lower. -/
theorem full_coverage_beats_escalated_or_imputed_witness :
    domainOk ⟨"aA", ["PL19"], []⟩ [] ⟨"PL19", []⟩ = true
    ∧ (process_query ⟨fun _ => [], fun _ _ => some 1⟩ (fun _ => none) []
        [⟨"peer", ["PL19"], []⟩] ⟨"aB", [], []⟩ ⟨"PL19", []⟩ "algo" 0 2).1.error = none
    ∧ (process_query ⟨fun _ => [], fun _ _ => some 1⟩ (fun _ => none) []
        [⟨"peer", ["PL19"], []⟩] ⟨"aB", [], []⟩ ⟨"PL19", []⟩ "algo" 0 2).1.confidence
      < (process_query ⟨fun _ => [], fun _ _ => some 1⟩ (fun _ => none) []
        [⟨"peer", ["PL19"], []⟩] ⟨"aA", ["PL19"], []⟩ ⟨"PL19", []⟩ "algo" 0 2).1.confidence :=
  ⟨by decide,
   by
    have hq : (process_query ⟨fun _ => [], fun _ _ => some 1⟩ (fun _ => none) []
        [⟨"peer", ["PL19"], []⟩] ⟨"aB", [], []⟩ ⟨"PL19", []⟩ "algo" 0 2)
        = (escalate 0 (processQueryAux ⟨fun _ => [], fun _ _ => some 1⟩ (fun _ => none) []
            [⟨"peer", ["PL19"], []⟩] 2 1 ⟨"peer", ["PL19"], []⟩ ⟨"PL19", []⟩ "algo" 1).1,
           if (processQueryAux ⟨fun _ => [], fun _ _ => some 1⟩ (fun _ => none) []
            [⟨"peer", ["PL19"], []⟩] 2 1 ⟨"peer", ["PL19"], []⟩ ⟨"PL19", []⟩ "algo"
            1).1.error.isSome then .error else .learning) := by
      unfold process_query
      exact processQueryAux_escalate_eq _ _ _ _ 2 1 _ _ _ 0 _ (by decide) (by decide)
        (by decide)
    rw [hq]
    simp only [escalate, ProcessResult.error_mk]
    rw [processQueryAux]
    rw [if_pos (by decide)]
    unfold processDirect
    simp [axisCheck, execStep],
   full_coverage_beats_escalated_or_imputed ⟨fun _ => [], fun _ _ => some 1⟩
     (fun _ => none) [] [⟨"peer", ["PL19"], []⟩] ⟨"aA", ["PL19"], []⟩ ⟨"aB", [], []⟩
     ⟨"PL19", []⟩ "algo" 0 2 (by decide) (by simp) (by
      have hq : (process_query ⟨fun _ => [], fun _ _ => some 1⟩ (fun _ => none) []
          [⟨"peer", ["PL19"], []⟩] ⟨"aA", ["PL19"], []⟩ ⟨"PL19", []⟩ "algo" 0 2)
          = processDirect ⟨fun _ => [], fun _ _ => some 1⟩ (fun _ => none)
            ⟨"aA", ["PL19"], []⟩ ⟨"PL19", []⟩ "algo" := by
        unfold process_query
        simp only [processQueryAux]
        rw [if_pos (by decide)]
      rw [hq]
      unfold processDirect
      simp [axisCheck, execStep]) (by
      have hq : (process_query ⟨fun _ => [], fun _ _ => some 1⟩ (fun _ => none) []
          [⟨"peer", ["PL19"], []⟩] ⟨"aB", [], []⟩ ⟨"PL19", []⟩ "algo" 0 2)
          = (escalate 0 (processQueryAux ⟨fun _ => [], fun _ _ => some 1⟩ (fun _ => none) []
              [⟨"peer", ["PL19"], []⟩] 2 1 ⟨"peer", ["PL19"], []⟩ ⟨"PL19", []⟩ "algo" 1).1,
             if (processQueryAux ⟨fun _ => [], fun _ _ => some 1⟩ (fun _ => none) []
              [⟨"peer", ["PL19"], []⟩] 2 1 ⟨"peer", ["PL19"], []⟩ ⟨"PL19", []⟩ "algo"
              1).1.error.isSome then .error else .learning) := by
        unfold process_query
        exact processQueryAux_escalate_eq _ _ _ _ 2 1 _ _ _ 0 _ (by decide) (by decide)
          (by decide)
      rw [hq]
      simp only [escalate, ProcessResult.error_mk]
      rw [processQueryAux]
      rw [if_pos (by decide)]
      unfold processDirect
      simp [axisCheck, execStep])
     (Or.inl ⟨by decide, by decide, by decide⟩)⟩

end AKF
